import Mathlib

/-!
Verification of the `emt` error-aggregation library (Go) against its
natural-language specification, via a shallow embedding in Lean.

The embedding covers:
* the error values the library manipulates (`GoErr`): plain errors from
  `errors.New` / `fmt.Errorf`, wrapped errors from `fmt.Errorf("%s: %w", ..)`,
  timestamp-annotated errors (`*timestampError`), and collector objects
  passed as `error` values (the duck-typed "Collector-like" capability);
* the bounded collector `baseCatcher` with its three formatting policies
  (basic / simple / extended) from `catcher.go`;
* the timestamp wrapper (`newTimeStampError`, `WrapErrorTime`,
  `ErrorTimeFinder`) and the `timeAnnotatingCatcher` from
  `catcher_timestamp.go`;
* the `ErrorChannel` bridge (`Collect`, `Stop`, `Resolve`) from `chanl.go`.

Modelling conventions:
* Go's `error` interface value is `Option GoErr`; `none` models the nil
  interface.  The nil `*timestampError` pointer (the result of
  `newTimeStampError(nil)`) is also modelled as `none`: every operation the
  claims exercise treats the two identically (`ErrorTimeFinder` returns the
  zero time and `false` for both, lines 15-17 and 20-22 of
  catcher_timestamp.go).
* A runtime fault (nil dereference) is modelled as `none` in an
  `Option`-valued result.
* `time.Time` is modelled as `Nat`; the zero instant is `0`, and
  `time.Now()` is an explicit `now : Nat` argument threaded to the
  operations that read the clock.
* The mutex discipline is made explicit where it is observable: Go's
  `sync.RWMutex` is not reentrant, so a method that re-acquires a mutex the
  same call already holds never returns.  Mutating collector operations
  therefore return `Option` state, with `none` for that self-deadlock.
-/

/-- Formatting policy of a `baseCatcher`: which `fmt.Stringer` was installed
by `makeBasicCatcher` / `makeSimpleCatcher` / `makeExtCatcher`. -/
inductive Policy where
  | basic    -- basicCatcher: err.Error()
  | simple   -- simpleCatcher: fmt.Sprintf("%s", err)
  | extended -- extendedCatcher: fmt.Sprintf("%+v", err)
deriving DecidableEq, Repr

/-- A non-nil Go `error` value, as the library can observe it:
* `leaf msg` — an `errors.New(msg)` / fully-formatted `fmt.Errorf` error
  whose `Error()` text is `msg` and which exposes no `Cause`/`Unwrap` and is
  not a collector;
* `fmtWrap m inner` — the result of `fmt.Errorf("%s: %w", m, inner)` (from
  `WrapErrorTimeMessage`): exposes `Unwrap() = inner`;
* `ts inner time extended` — a non-nil `*timestampError` with fields
  `err = inner`, `time`, `extended`; exposes `Cause`/`Unwrap` and a custom
  `Format`;
* `catcher errs policy` — a `*baseCatcher` (or any Collector-like value)
  passed as an `error`: it satisfies the `Catcher` interface, exposing
  `HasErrors()`/`Errors()` over the stored sequence `errs` and the
  rendering policy `policy`. -/
inductive GoErr where
  | leaf (msg : String)
  | fmtWrap (m : String) (inner : GoErr)
  | ts (inner : GoErr) (time : Nat) (extended : Bool)
  | catcher (errs : List GoErr) (policy : Policy)

/-- Is the value a `*timestampError`? (the type assertion
`err.(*timestampError)`). -/
def GoErr.isTs : GoErr → Bool
  | .ts _ _ _ => true
  | _ => false

/-- Does the value satisfy the `Catcher` interface? (the type assertion
`err.(Catcher)` in `baseCatcher.safeAdd`). -/
def GoErr.isCatcherVal : GoErr → Bool
  | .catcher _ _ => true
  | _ => false

/-- The verb a formatting policy applies to each stored error. -/
inductive Verb where
  | errv  -- the err.Error() method
  | sv    -- fmt "%s" (identical to "%v" on every error the library builds)
  | plusv -- fmt "%+v"
deriving DecidableEq, Repr

/-- Which verb each `baseCatcher` policy uses on stored errors
(`basicCatcher.String` / `simpleCatcher.String` / `extendedCatcher.String`). -/
def verbOf : Policy → Verb
  | .basic => .errv
  | .simple => .sv
  | .extended => .plusv

/-- Model of `t.Format(time.RFC3339)` on the model clock: an arbitrary but
fixed injective rendering (timestamp cosmetics are out of the spec's
scope). -/
def rfc3339 (t : Nat) : String := toString t

/-- The three textual renderings of one error value. `none` models a
runtime fault while producing the text. -/
structure Renders where
  errv : Option String
  sv : Option String
  plusv : Option String

/-- Pick the rendering a verb produces. -/
def Renders.pick (v : Verb) (r : Renders) : Option String :=
  match v with
  | .errv => r.errv
  | .sv => r.sv
  | .plusv => r.plusv

/-- Combine per-element renderings; any faulting element faults the whole
rendering. -/
def seqOptions : List (Option String) → Option (List String)
  | [] => some []
  | o :: rest => o.bind fun s => (seqOptions rest).map fun l => s :: l

mutual

/-- The `Error()`, `%s` and `%+v` texts of an error value, translated from
the source:
* `errors.New`/`fmt.Errorf` leaves render as their message under every verb;
* `fmt.Errorf("%s: %w", m, inner)` pre-formats its message as
  `m ++ ": " ++ %v(inner)` (and `%v = %s` on every value here);
* `timestampError.String()` is the inner error's `Error()` text, or its
  `%+v` text when the `extended` flag is set (catcher_timestamp.go 92-102);
  `timestampError.Error()` is `"[RFC3339], " ++ String()` (line 106-108);
  `timestampError.Format` writes `"[RFC3339] " ++ String()` for `%s`/`%v`,
  and for `%+v` writes `"[RFC3339] " ++ %+v(cause)` and then falls through
  to the `%s` case, appending `"[RFC3339] " ++ String()` as well
  (lines 110-122);
* a `*baseCatcher` used as an error renders as `Error() = Resolve().Error()`:
  a nil dereference when it stores no errors, otherwise its `String()` —
  the newline-join of its stored errors rendered under its own policy. -/
def renders : GoErr → Renders
  | .leaf msg => ⟨some msg, some msg, some msg⟩
  | .fmtWrap m inner =>
      let s := ((renders inner).sv).map fun t => m ++ ": " ++ t
      ⟨s, s, s⟩
  | .ts inner t x =>
      let r := renders inner
      let strv := if x then r.plusv else r.errv
      ⟨strv.map fun s => "[" ++ rfc3339 t ++ "], " ++ s,
       strv.map fun s => "[" ++ rfc3339 t ++ "] " ++ s,
       r.plusv.bind fun a => strv.map fun b =>
         "[" ++ rfc3339 t ++ "] " ++ a ++ "[" ++ rfc3339 t ++ "] " ++ b⟩
  | .catcher es p =>
      let s :=
        if es.length = 0 then none
        else (seqOptions ((rendersList es).map (Renders.pick (verbOf p)))).map
          fun l => String.intercalate "\n" l
      ⟨s, s, s⟩

/-- Renderings of a list of stored errors, in order. -/
def rendersList : List GoErr → List Renders
  | [] => []
  | e :: rest => renders e :: rendersList rest

end

/-- Rendering of one error under one verb. -/
def goFmt (v : Verb) (e : GoErr) : Option String := (renders e).pick v

/-- Renderings of a list of errors under one verb, faulting if any element
faults. -/
def goFmtList (v : Verb) (es : List GoErr) : Option (List String) :=
  seqOptions ((rendersList es).map (Renders.pick v))

/-! ## The bounded collector `baseCatcher` (catcher.go) -/

/-- State of a `baseCatcher`: the guarded error sequence, the optional
capacity bound, and the installed formatting policy (the `fmt.Stringer`
chosen by the constructor).  `maxSize` is a Go `int`. -/
structure BaseCatcher where
  errs : List GoErr
  maxSize : Int
  policy : Policy

/-- The insertion step shared by both collector variants
(`baseCatcher.safeAdd` lines 450-455, `timeAnnotatingCatcher.safeAdd`
lines 191-196): append, dropping the oldest element first when the
capacity bound is active and reached
(`c.maxSize <= 0 || c.maxSize > len(c.errs)`). -/
def push (maxSize : Int) (es : List α) (x : α) : List α :=
  if maxSize ≤ 0 ∨ (es.length : Int) < maxSize then es ++ [x]
  else es.drop 1 ++ [x]

/-- Go `baseCatcher.safeAdd` (catcher.go 442-456), executed with `c.mutex`
held by the caller.  If the argument satisfies the `Catcher` interface and
`HasErrors()` reports stored errors, the source calls
`c.Extend(catcher.Errors())`; `Extend` on a non-empty slice re-acquires
`c.mutex` (line 489), which the caller already holds — `sync.RWMutex` is
not reentrant, so the call blocks forever.  That divergence is modelled as
`none`.  Otherwise the argument is appended under the eviction policy. -/
def BaseCatcher.safeAdd (c : BaseCatcher) (err : GoErr) : Option BaseCatcher :=
  match err with
  | .catcher es _ =>
      if 0 < es.length then none
      else some c
  | e => some { c with errs := push c.maxSize c.errs e }

/-- Go `baseCatcher.Add` (catcher.go 432-440): nil is filtered before the
mutex is taken; otherwise lock, `safeAdd`, unlock. -/
def BaseCatcher.add (c : BaseCatcher) (err : Option GoErr) : Option BaseCatcher :=
  match err with
  | none => some c
  | some e => c.safeAdd e

/-- The loop body of `baseCatcher.Extend` (catcher.go 492-498), executed
with `c.mutex` held: nil elements are skipped, the rest go through
`safeAdd`. -/
def BaseCatcher.extendLoop (c : BaseCatcher) : List (Option GoErr) → Option BaseCatcher
  | [] => some c
  | none :: rest => c.extendLoop rest
  | some e :: rest =>
      match c.safeAdd e with
      | none => none
      | some c2 => c2.extendLoop rest

/-- Go `baseCatcher.Extend` (catcher.go 484-499): empty slices return before
the mutex is taken. -/
def BaseCatcher.extend (c : BaseCatcher) (errs : List (Option GoErr)) : Option BaseCatcher :=
  if errs.length = 0 then some c
  else c.extendLoop errs

/-- Go `baseCatcher.New` (catcher.go 511-516). -/
def BaseCatcher.new (c : BaseCatcher) (e : String) : Option BaseCatcher :=
  if e = "" then some c
  else c.add (some (.leaf e))

/-- Go `baseCatcher.Errorf` (catcher.go 501-509).  `fmtErrorf` stands for the
external `fmt.Errorf` formatter applied when format arguments are present;
the branch structure is the source's: empty format → no-op, no arguments →
`New(form)` (the literal message), otherwise `Add(fmt.Errorf(form, args))`. -/
def BaseCatcher.errorf (fmtErrorf : String → List α → GoErr)
    (c : BaseCatcher) (form : String) (args : List α) : Option BaseCatcher :=
  if form = "" then some c
  else if args.length = 0 then c.new form
  else c.add (some (fmtErrorf form args))

/-- Go `baseCatcher.Len` (catcher.go 459-464). -/
def BaseCatcher.len (c : BaseCatcher) : Nat := c.errs.length

/-- Go `baseCatcher.HasErrors` (catcher.go 476-481). -/
def BaseCatcher.hasErrors (c : BaseCatcher) : Bool := 0 < c.errs.length

/-- Go `baseCatcher.Errors` (catcher.go 566-575): a copy of the stored
sequence. -/
def BaseCatcher.errorsList (c : BaseCatcher) : List GoErr := c.errs

/-- The installed `String()` method (catcher.go 602-643): each stored error
rendered under the policy's verb, newline-joined.  `none` models a fault
while rendering an element. -/
def BaseCatcher.string (c : BaseCatcher) : Option String :=
  (goFmtList (verbOf c.policy) c.errs).map fun l => String.intercalate "\n" l

/-- Go `baseCatcher.Resolve` (catcher.go 580-586): `nil` when `HasErrors()` is
false, otherwise `errors.New(c.String())`.  The outer `Option` models a
fault inside `String()`; the inner one is the returned `error`. -/
def BaseCatcher.resolve (c : BaseCatcher) : Option (Option GoErr) :=
  if c.hasErrors then (c.string).map fun s => some (.leaf s)
  else some none

/-- Go `baseCatcher.Error` (catcher.go 588): `c.Resolve().Error()`.  When
`Resolve` returns `nil` this dereferences a nil interface — a runtime
fault, modelled as `none`. -/
def BaseCatcher.errorMethod (c : BaseCatcher) : Option String :=
  match c.resolve with
  | some none => none
  | some (some e) => goFmt .errv e
  | none => none

/-- A sequence of `Add` calls (the iterated public entry point). -/
def BaseCatcher.addAll (c : BaseCatcher) : List (Option GoErr) → Option BaseCatcher
  | [] => some c
  | e :: rest =>
      match c.add e with
      | none => none
      | some c2 => c2.addAll rest

/-- Go `MakeBasicCatcher`/`MakeSimpleCatcher`/`MakeExtendedCatcher`
(catcher.go 414-428): an empty collector with the given capacity and
policy; the `New*` constructors pass capacity 0. -/
def makeCatcher (size : Int) (p : Policy) : BaseCatcher :=
  { errs := [], maxSize := size, policy := p }

/-! ## The timestamp wrapper (catcher_timestamp.go) -/

/-- The fields of a non-nil `*timestampError` (catcher_timestamp.go 46-50). -/
structure TsEntry where
  inner : GoErr
  time : Nat
  extended : Bool

/-- The `error` interface view of a `*timestampError`. -/
def TsEntry.toErr (e : TsEntry) : GoErr := .ts e.inner e.time e.extended

/-- Go `newTimeStampError` on a non-nil argument (catcher_timestamp.go 57-65):
an already-timestamped error is returned as-is (same fields, same capture
time); anything else is wrapped with the current instant and a cleared
`extended` flag. -/
def newTimeStampEntry (now : Nat) : GoErr → TsEntry
  | .ts i t x => ⟨i, t, x⟩
  | e => ⟨e, now, false⟩

/-- Go `newTimeStampError` (catcher_timestamp.go 52-66): nil in, nil
`*timestampError` out. -/
def newTimeStampError (now : Nat) : Option GoErr → Option TsEntry
  | none => none
  | some e => some (newTimeStampEntry now e)

/-- Go `timestampError.setExtended` (catcher_timestamp.go 68). -/
def TsEntry.setExtended (e : TsEntry) (v : Bool) : TsEntry := { e with extended := v }

/-- Go `WrapErrorTime` (catcher_timestamp.go 72): `newTimeStampError` viewed as
an `error`. -/
def WrapErrorTime (now : Nat) (err : Option GoErr) : Option GoErr :=
  (newTimeStampError now err).map TsEntry.toErr

/-- Go `WrapErrorTimeMessage` (catcher_timestamp.go 77-82): nil in, nil out;
otherwise the argument is first wrapped by `fmt.Errorf("%s: %w", m, err)`
and then timestamped. -/
def WrapErrorTimeMessage (now : Nat) (err : Option GoErr) (m : String) : Option GoErr :=
  match err with
  | none => none
  | some e => WrapErrorTime now (some (.fmtWrap m e))

/-- The unwrapping loop of `ErrorTimeFinder` (catcher_timestamp.go 26-41):
a `*timestampError` yields its capture time; otherwise the `Cause()` /
`Unwrap()` chain is followed (`fmt.Errorf("%s: %w", ..)` wrappers expose
`Unwrap`); values exposing neither end the loop with the zero time.  The
direct type assertion at lines 19-24 coincides with the loop's first
iteration. -/
def findLoop : GoErr → Nat × Bool
  | .ts _ t _ => (t, true)
  | .fmtWrap _ inner => findLoop inner
  | .leaf _ => (0, false)
  | .catcher _ _ => (0, false)

/-- Go `ErrorTimeFinder` (catcher_timestamp.go 14-44).  `none` covers both the
nil interface (lines 15-17) and the nil `*timestampError` pointer
(lines 20-22); both return the zero time and `false`. -/
def ErrorTimeFinder : Option GoErr → Nat × Bool
  | none => (0, false)
  | some e => findLoop e

/-! ## The timestamp-annotating collector (catcher_timestamp.go 128-344) -/

/-- State of a `timeAnnotatingCatcher`: stored `*timestampError` values,
the capacity bound, and the constructor-chosen extended-rendering flag. -/
structure TsCatcher where
  errs : List TsEntry
  maxSize : Int
  extended : Bool

/-- Go `timeAnnotatingCatcher.safeAdd` (catcher_timestamp.go 187-200): a
type-switch — nil is dropped, a `*timestampError` is inserted under the
eviction policy, and any other error recurses after
`newTimeStampError(e).setExtended(c.extended)`; the recursive call lands in
the `*timestampError` case, written here directly. -/
def TsCatcher.safeAdd (now : Nat) (c : TsCatcher) (err : Option GoErr) : TsCatcher :=
  match err with
  | none => c
  | some (.ts i t x) => { c with errs := push c.maxSize c.errs ⟨i, t, x⟩ }
  | some e =>
      { c with errs := push c.maxSize c.errs ((newTimeStampEntry now e).setExtended c.extended) }

/-- Go `timeAnnotatingCatcher.Add` (catcher_timestamp.go 176-185): nil is
filtered, then `safeAdd` under the (never re-entered) mutex. -/
def TsCatcher.add (now : Nat) (c : TsCatcher) (err : Option GoErr) : TsCatcher :=
  match err with
  | none => c
  | some e => c.safeAdd now (some e)

/-- The loop body of `timeAnnotatingCatcher.Extend`
(catcher_timestamp.go 210-216): nil elements are skipped, the rest are
wrapped by `newTimeStampError(err).setExtended(c.extended)` and passed to
`safeAdd`. -/
def TsCatcher.extendLoop (now : Nat) (c : TsCatcher) : List (Option GoErr) → TsCatcher
  | [] => c
  | none :: rest => c.extendLoop now rest
  | some e :: rest =>
      (c.safeAdd now (some ((newTimeStampEntry now e).setExtended c.extended).toErr)).extendLoop
        now rest

/-- Go `timeAnnotatingCatcher.Extend` (catcher_timestamp.go 202-217). -/
def TsCatcher.extend (now : Nat) (c : TsCatcher) (errs : List (Option GoErr)) : TsCatcher :=
  if errs.length = 0 then c
  else c.extendLoop now errs

/-- Go `timeAnnotatingCatcher.New` (catcher_timestamp.go 235-241). -/
def TsCatcher.new (now : Nat) (c : TsCatcher) (e : String) : TsCatcher :=
  if e = "" then c
  else c.add now (some (.leaf e))

/-- Go `timeAnnotatingCatcher.Errorf` (catcher_timestamp.go 251-260): same
branch structure as `baseCatcher.Errorf`. -/
def TsCatcher.errorf (fmtErrorf : String → List α → GoErr)
    (now : Nat) (c : TsCatcher) (form : String) (args : List α) : TsCatcher :=
  if form = "" then c
  else if args.length = 0 then c.new now form
  else c.add now (some (fmtErrorf form args))

/-- Go `timeAnnotatingCatcher.Len` (catcher_timestamp.go 288-293). -/
def TsCatcher.len (c : TsCatcher) : Nat := c.errs.length

/-- Go `timeAnnotatingCatcher.HasErrors` (catcher_timestamp.go 302-307). -/
def TsCatcher.hasErrors (c : TsCatcher) : Bool := 0 < c.errs.length

/-- Go `timeAnnotatingCatcher.Errors` (catcher_timestamp.go 309-319): the
stored `*timestampError` values as plain errors. -/
def TsCatcher.errorsList (c : TsCatcher) : List GoErr := c.errs.map TsEntry.toErr

/-- Go `timestampError.String` (catcher_timestamp.go 92-102): the inner
error's `%+v` text when the `extended` flag is set, else its `Error()`
text.  The `e.err == nil` guard at line 93 is unreachable here:
`newTimeStampError` never builds a `*timestampError` holding a nil error,
and those are the only ones the collector stores. -/
def TsEntry.string (e : TsEntry) : Option String :=
  if e.extended then (renders e.inner).plusv else (renders e.inner).errv

/-- Go `timeAnnotatingCatcher.String` (catcher_timestamp.go 321-336): each
stored element rendered by `err.String()` — the source tests
`err.extended` but calls `err.String()` on both branches — then
newline-joined. -/
def TsCatcher.string (c : TsCatcher) : Option String :=
  (seqOptions (c.errs.map fun err =>
    if err.extended then err.string else err.string)).map
    fun l => String.intercalate "\n" l

/-- Go `timeAnnotatingCatcher.Resolve` (catcher_timestamp.go 338-344). -/
def TsCatcher.resolve (c : TsCatcher) : Option (Option GoErr) :=
  if c.hasErrors then (c.string).map fun s => some (.leaf s)
  else some none

/-- Go `timeAnnotatingCatcher.Error` (catcher.go 873): `c.Resolve().Error()`,
a nil dereference when `Resolve` returns `nil`. -/
def TsCatcher.errorMethod (c : TsCatcher) : Option String :=
  match c.resolve with
  | some none => none
  | some (some e) => goFmt .errv e
  | none => none

/-- A sequence of `Add` calls on the timestamp-annotating collector, all at
the same model instant. -/
def TsCatcher.addAll (now : Nat) (c : TsCatcher) : List (Option GoErr) → TsCatcher
  | [] => c
  | e :: rest => (c.add now e).addAll now rest

/-- Go `MakeTimestampCatcher` (catcher_timestamp.go 149-158): negative sizes
are clamped to 0 (unbounded). -/
def MakeTimestampCatcher (size : Int) : TsCatcher :=
  { errs := [], maxSize := if size < 0 then 0 else size, extended := false }

/-- Go `MakeExtendedTimestampCatcher` (catcher_timestamp.go 165-174). -/
def MakeExtendedTimestampCatcher (size : Int) : TsCatcher :=
  { errs := [], maxSize := if size < 0 then 0 else size, extended := true }

/-! ## The channel bridge `ErrorChannel` (chanl.go) -/

/-- State of an `ErrorChannel`: the owned collector (`NewCatcher()`, i.e. an
unbounded extended `baseCatcher`), the buffered inbound and outbound
queues with their shared capacity, and whether the bridge's own context has
been cancelled (`Stop` or the parent context). -/
structure ErrorChannel where
  errRecv : List (Option GoErr)
  errSend : List (Option GoErr)
  size : Nat
  catcher : BaseCatcher
  stopped : Bool

/-- Go `NewErrorChannel` (chanl.go 375-385): fresh queues of capacity `size`
and `NewCatcher()` — an unbounded extended catcher. -/
def NewErrorChannel (size : Nat) : ErrorChannel :=
  { errRecv := [], errSend := [], size := size
    catcher := makeCatcher 0 .extended, stopped := false }

/-- Which wake condition wins the `select` race inside `Collect`
(chanl.go 441-445): the caller's context, the channel's own context, or
outbound capacity.  The race is resolved by the environment; the model
takes the winner as a parameter. -/
inductive CollectOutcome where
  | callerCancelled
  | channelCancelled
  | forwarded
deriving DecidableEq, Repr

/-- Go `ErrorChannel.Collect` (chanl.go 438-447): a nil error is a no-op;
otherwise the error is stored in the owned catcher first, unconditionally,
and only then does the `select` race decide whether it also reaches the
outbound queue.  `none` propagates a non-returning `catcher.Add` (possible
only for a Collector-valued argument). -/
def ErrorChannel.collect (ec : ErrorChannel) (err : Option GoErr)
    (outcome : CollectOutcome) : Option ErrorChannel :=
  match err with
  | none => some ec
  | some e =>
      (ec.catcher.add (some e)).map fun cat =>
        match outcome with
        | .forwarded => { ec with catcher := cat, errSend := ec.errSend ++ [some e] }
        | _ => { ec with catcher := cat }

/-- Go `ErrorChannel.Stop` (chanl.go 417): cancels the bridge's own context;
the catcher and queues are untouched. -/
def ErrorChannel.stop (ec : ErrorChannel) : ErrorChannel :=
  { ec with stopped := true }

/-- Go `ErrorChannel.Resolve` (chanl.go 420): delegates to the owned catcher. -/
def ErrorChannel.resolve (ec : ErrorChannel) : Option (Option GoErr) :=
  ec.catcher.resolve

/-! ## The sliding window describing FIFO eviction -/

/-- The last `m` elements of a list (all of it when it is shorter). -/
def window (m : Nat) (xs : List α) : List α := xs.drop (xs.length - m)

theorem window_length (m : Nat) (xs : List α) :
    (window m xs).length = min xs.length m := by
  simp [window]
  omega

theorem window_of_le (m : Nat) (xs : List α) (h : xs.length ≤ m) :
    window m xs = xs := by
  have : xs.length - m = 0 := by omega
  simp [window, this]

theorem push_window (m : Int) (hm : 0 < m) (es : List α) (h : es.length ≤ m.toNat)
    (x : α) :
    push m es x = window m.toNat (es ++ [x]) ∧ (push m es x).length ≤ m.toNat := by
  by_cases hlt : (es.length : Int) < m
  · have hlen : es.length + 1 ≤ m.toNat := by omega
    constructor
    · rw [window_of_le m.toNat (es ++ [x]) (by simpa using hlen)]
      simp [push, hlt]
    · simp [push, hlt, hlen]
  · have hlen : es.length = m.toNat := by omega
    have h1 : (es ++ [x]).length - m.toNat = 1 := by simp [hlen]
    constructor
    · rw [window, h1]
      have : (1 : Nat) ≤ es.length := by omega
      rw [List.drop_append_of_le_length this]
      simp [push, hlt, hm.not_le]
    · simp [push, hlt, hm.not_le]
      omega

theorem push_unbounded (m : Int) (hm : m ≤ 0) (es : List α) (x : α) :
    push m es x = es ++ [x] := by
  simp [push, hm]

theorem window_concat (m : Nat) (A L : List α) :
    window m (window m A ++ L) = window m (A ++ L) := by
  by_cases h : A.length ≤ m
  · rw [window_of_le m A h]
  · have hd : A.length - m ≤ A.length := Nat.sub_le _ _
    have hwl : (window m A).length = m := by rw [window_length]; omega
    have hlen : (window m A ++ L).length - m = L.length := by
      rw [List.length_append, hwl]; omega
    have h4 : (A ++ L).length - m = L.length + (A.length - m) := by
      rw [List.length_append]; omega
    calc window m (window m A ++ L)
        = (window m A ++ L).drop L.length := by rw [window, hlen]
      _ = (A.drop (A.length - m) ++ L).drop L.length := by rw [window]
      _ = ((A ++ L).drop (A.length - m)).drop L.length := by
            rw [List.drop_append_of_le_length hd]
      _ = (A ++ L).drop (L.length + (A.length - m)) := by
            rw [List.drop_drop, Nat.add_comm]
      _ = window m (A ++ L) := by rw [window, h4]

theorem foldl_push_window (m : Int) (hm : 0 < m) :
    ∀ (xs es : List α), es.length ≤ m.toNat →
      List.foldl (push m) es xs = window m.toNat (es ++ xs) := by
  intro xs
  induction xs with
  | nil =>
      intro es h
      simpa using (window_of_le m.toNat es h).symm
  | cons x rest ih =>
      intro es h
      have hp := push_window m hm es h x
      rw [List.foldl_cons, ih _ hp.2, hp.1, window_concat]
      simp

theorem foldl_push_unbounded (m : Int) (hm : m ≤ 0) :
    ∀ (xs es : List α), List.foldl (push m) es xs = es ++ xs := by
  intro xs
  induction xs with
  | nil => intro es; simp
  | cons x rest ih =>
      intro es
      rw [List.foldl_cons, push_unbounded m hm, ih]
      simp

/-- A run of `Add` calls whose arguments are nil or leaf errors reduces to
folding the eviction step over the non-nil arguments. -/
theorem BaseCatcher.addAll_leaves (c : BaseCatcher) (inputs : List (Option String)) :
    c.addAll (inputs.map (Option.map GoErr.leaf))
      = some ⟨List.foldl (push c.maxSize) c.errs ((inputs.filterMap id).map GoErr.leaf),
          c.maxSize, c.policy⟩ := by
  induction inputs generalizing c with
  | nil => simp [BaseCatcher.addAll]
  | cons o rest ih =>
      cases o with
      | none => simpa [BaseCatcher.addAll, BaseCatcher.add] using ih c
      | some msg =>
          simp [BaseCatcher.addAll, BaseCatcher.add, BaseCatcher.safeAdd, ih]

/-- The timestamp-annotating analogue: a run of `Add` calls on nil or leaf
arguments folds the eviction step over the wrapped non-nil arguments. -/
theorem TsCatcher.addAll_wrapped_leaves (now : Nat) (c : TsCatcher) (inputs : List (Option String)) :
    c.addAll now (inputs.map (Option.map GoErr.leaf))
      = ⟨List.foldl (push c.maxSize) c.errs
            ((inputs.filterMap id).map fun m => (⟨GoErr.leaf m, now, c.extended⟩ : TsEntry)),
          c.maxSize, c.extended⟩ := by
  induction inputs generalizing c with
  | nil => simp [TsCatcher.addAll]
  | cons o rest ih =>
      cases o with
      | none => simpa [TsCatcher.addAll, TsCatcher.add] using ih c
      | some msg =>
          simp [TsCatcher.addAll, TsCatcher.add, TsCatcher.safeAdd, newTimeStampEntry,
            TsEntry.setExtended, ih]

/-! ## Claims -/

/-- C1: the claim says `Add` on a Collector-like argument holding stored
errors terminates and merges those errors in individually.  The code does
not: `Add` takes `c.mutex` and `safeAdd` then calls
`c.Extend(catcher.Errors())`, which re-acquires the same non-reentrant
mutex and blocks forever.  Evaluated at the failing input — an empty
unbounded basic catcher receiving a sub-collector holding one error — both
the `Add` and the `Extend` entry points diverge (`none`); nothing is ever
merged. -/
theorem c1_add_populated_subcollector_diverges :
    (makeCatcher 0 .basic).add (some (.catcher [.leaf "a"] .basic)) = none
    ∧ (makeCatcher 0 .basic).extend [some (.catcher [.leaf "a"] .basic)] = none :=
  ⟨rfl, rfl⟩

/-- C5: the timestamp wrapper is nil-absorbing and idempotent —
`newTimeStampError`/`WrapErrorTime` map nil to nil (no object is built),
and an already-timestamped error is returned unchanged, keeping its
original capture instant and flags. -/
theorem c5_wrap_nil_absorbing_idempotent :
    (∀ now, WrapErrorTime now none = none)
    ∧ (∀ now i t x, WrapErrorTime now (some (.ts i t x)) = some (.ts i t x))
    ∧ (∀ now, newTimeStampError now none = none)
    ∧ (∀ now i t x, newTimeStampError now (some (.ts i t x)) = some ⟨i, t, x⟩) :=
  ⟨fun _ => rfl, fun _ _ _ _ => rfl, fun _ => rfl, fun _ _ _ _ => rfl⟩

/-- C6: `ErrorTimeFinder` returns the zero instant and `false` on nil, on a
plain unwrapped error, and on `Wrap(nil)`; it traverses the cause/unwrap
chain, so a wrapper layer is transparent; `Wrap` of a non-nil,
not-yet-timestamped error is found with the wrapping instant (non-zero when
the clock is); and wrapping an already-timestamped error preserves the
original capture instant. -/
theorem c6_error_time_finder (now t : Nat) (m : String) (e i : GoErr)
    (hts : e.isTs = false) (hnow : 0 < now) (x : Bool) :
    ErrorTimeFinder none = (0, false)
    ∧ ErrorTimeFinder (some (.leaf m)) = (0, false)
    ∧ ErrorTimeFinder (WrapErrorTime now none) = (0, false)
    ∧ ErrorTimeFinder (some (.fmtWrap m e)) = ErrorTimeFinder (some e)
    ∧ (ErrorTimeFinder (WrapErrorTime now (some e)) = (now, true) ∧ now ≠ 0)
    ∧ ErrorTimeFinder (WrapErrorTime now (some (.ts i t x))) = (t, true) := by
  refine ⟨rfl, rfl, rfl, rfl, ⟨?_, by omega⟩, rfl⟩
  cases e with
  | leaf _ => rfl
  | fmtWrap _ _ => rfl
  | catcher _ _ => rfl
  | ts _ _ _ => simp [GoErr.isTs] at hts

theorem c6_error_time_finder_witness :
    ErrorTimeFinder none = (0, false)
    ∧ ErrorTimeFinder (some (.leaf "x")) = (0, false)
    ∧ ErrorTimeFinder (WrapErrorTime 9 none) = (0, false)
    ∧ ErrorTimeFinder (some (.fmtWrap "x" (.leaf "y")))
        = ErrorTimeFinder (some (.leaf "y"))
    ∧ (ErrorTimeFinder (WrapErrorTime 9 (some (.leaf "y"))) = (9, true) ∧ 9 ≠ 0)
    ∧ ErrorTimeFinder (WrapErrorTime 9 (some (.ts (.leaf "y") 4 false))) = (4, true) :=
  c6_error_time_finder 9 4 "x" (.leaf "y") (.leaf "y") (by decide) (by decide) false

/-- C7: the timestamp-annotating collector never flattens a Collector-like
argument: with capacity available, `Add` stores it timestamp-wrapped as
exactly one entry (so `Len` grows by one, not by the sub-collector's
length), and a one-element `Extend` does the same. -/
theorem c7_ts_catcher_stores_collector_as_one (now : Nat) (c : TsCatcher)
    (es : List GoErr) (p : Policy)
    (h : c.maxSize ≤ 0 ∨ (c.errs.length : Int) < c.maxSize) :
    (c.add now (some (.catcher es p))).errs
        = c.errs ++ [⟨.catcher es p, now, c.extended⟩]
    ∧ (c.add now (some (.catcher es p))).len = c.len + 1
    ∧ c.extend now [some (.catcher es p)] = c.add now (some (.catcher es p)) := by
  have hp : push c.maxSize c.errs (⟨.catcher es p, now, c.extended⟩ : TsEntry)
      = c.errs ++ [⟨.catcher es p, now, c.extended⟩] := by
    simp only [push, if_pos h]
  refine ⟨?_, ?_, ?_⟩
  · simp [TsCatcher.add, TsCatcher.safeAdd, newTimeStampEntry, TsEntry.setExtended, hp]
  · simp [TsCatcher.add, TsCatcher.safeAdd, newTimeStampEntry, TsEntry.setExtended, hp,
      TsCatcher.len]
  · simp [TsCatcher.add, TsCatcher.safeAdd, TsCatcher.extend, TsCatcher.extendLoop,
      newTimeStampEntry, TsEntry.setExtended, TsEntry.toErr]

theorem c7_ts_catcher_stores_collector_as_one_witness :
    ((MakeTimestampCatcher 2).add 5 (some (.catcher [.leaf "a", .leaf "b"] .basic))).errs
        = [⟨.catcher [.leaf "a", .leaf "b"] .basic, 5, false⟩]
    ∧ ((MakeTimestampCatcher 2).add 5 (some (.catcher [.leaf "a", .leaf "b"] .basic))).len
        = 1
    ∧ (MakeTimestampCatcher 2).extend 5 [some (.catcher [.leaf "a", .leaf "b"] .basic)]
        = (MakeTimestampCatcher 2).add 5 (some (.catcher [.leaf "a", .leaf "b"] .basic)) :=
  c7_ts_catcher_stores_collector_as_one 5 (MakeTimestampCatcher 2)
    [.leaf "a", .leaf "b"] .basic (by right; decide)

/-- C2: over any `Add` sequence of nil and leaf errors, with capacity
`M > 0` the stored sequence is exactly the sliding window of the last
`min(k, M)` non-nil submissions in insertion order, so `Len = min(k, M)`;
with capacity 0 every non-nil submission is kept (`Len = k`).  The same
window law holds for the timestamp-annotating variant (each survivor
wrapped at its submission instant). -/
theorem c2_capacity_and_eviction (inputs : List (Option String)) (M : Int)
    (p : Policy) (now : Nat) :
    (0 < M →
      (makeCatcher M p).addAll (inputs.map (Option.map GoErr.leaf))
          = some ⟨window M.toNat ((inputs.filterMap id).map GoErr.leaf), M, p⟩
        ∧ (window M.toNat ((inputs.filterMap id).map GoErr.leaf)).length
          = min (inputs.filterMap id).length M.toNat)
    ∧ (M = 0 →
      (makeCatcher M p).addAll (inputs.map (Option.map GoErr.leaf))
          = some ⟨(inputs.filterMap id).map GoErr.leaf, M, p⟩)
    ∧ (0 < M →
      ((MakeTimestampCatcher M).addAll now (inputs.map (Option.map GoErr.leaf))).errs
          = window M.toNat
              ((inputs.filterMap id).map fun m => (⟨GoErr.leaf m, now, false⟩ : TsEntry))) := by
  refine ⟨fun hM => ⟨?_, ?_⟩, fun hM => ?_, fun hM => ?_⟩
  · rw [BaseCatcher.addAll_leaves]
    simp only [makeCatcher]
    rw [foldl_push_window M hM _ _ (by simp)]
    simp
  · rw [window_length]
    simp
  · rw [BaseCatcher.addAll_leaves]
    simp only [makeCatcher, hM]
    rw [foldl_push_unbounded 0 (by omega)]
    simp
  · rw [TsCatcher.addAll_wrapped_leaves]
    have hcl : (MakeTimestampCatcher M).maxSize = M := by
      simp only [MakeTimestampCatcher]
      rw [if_neg (by omega)]
    simp only [MakeTimestampCatcher, hcl]
    rw [if_neg (by omega : ¬ M < 0)]
    rw [foldl_push_window M hM _ _ (by simp)]
    simp

theorem c2_capacity_and_eviction_witness :
    ((0:Int) < 2
      ∧ (makeCatcher 2 .basic).addAll
            [some (GoErr.leaf "a"), none, some (GoErr.leaf "b"), some (GoErr.leaf "c")]
          = some ⟨[GoErr.leaf "b", GoErr.leaf "c"], 2, .basic⟩
      ∧ ([GoErr.leaf "b", GoErr.leaf "c"] : List GoErr).length = 2)
    ∧ ((makeCatcher 0 .basic).addAll
            [some (GoErr.leaf "a"), none, some (GoErr.leaf "b"), some (GoErr.leaf "c")]
          = some ⟨[GoErr.leaf "a", GoErr.leaf "b", GoErr.leaf "c"], 0, .basic⟩)
    ∧ (((MakeTimestampCatcher 2).addAll 7
            [some (GoErr.leaf "a"), none, some (GoErr.leaf "b"), some (GoErr.leaf "c")]).errs
          = [⟨GoErr.leaf "b", 7, false⟩, ⟨GoErr.leaf "c", 7, false⟩]) := by
  have h := c2_capacity_and_eviction [some "a", none, some "b", some "c"] 2 .basic 7
  have h0 := c2_capacity_and_eviction [some "a", none, some "b", some "c"] 0 .basic 7
  exact ⟨⟨by decide, (h.1 (by decide)).1, (h.1 (by decide)).2⟩,
    h0.2.1 rfl, h.2.2 (by decide)⟩

/-- C3: `Resolve` returns nil exactly when no errors are stored; otherwise
it returns `errors.New` of the newline-join of the per-element policy
renderings, in insertion order.  Both collector variants are covered;
`resolve` is a pure function of the state (the source only reads under a
shared lock), so repeated calls agree and `Len` is untouched by
construction. -/
theorem c3_resolve_empty_iff_nil_and_text (c : BaseCatcher) (tc : TsCatcher) :
    (c.resolve = some none ↔ c.errs = [])
    ∧ (∀ texts, c.errs ≠ [] →
        goFmtList (verbOf c.policy) c.errs = some texts →
        c.resolve = some (some (.leaf (String.intercalate "\n" texts))))
    ∧ (tc.resolve = some none ↔ tc.errs = [])
    ∧ (∀ texts, tc.errs ≠ [] →
        seqOptions (tc.errs.map fun err => if err.extended then err.string else err.string)
            = some texts →
        tc.resolve = some (some (.leaf (String.intercalate "\n" texts)))) := by
  refine ⟨⟨fun h => ?_, fun h => ?_⟩, fun texts hne hfmt => ?_,
    ⟨fun h => ?_, fun h => ?_⟩, fun texts hne hfmt => ?_⟩
  · by_contra hne
    have hh : c.hasErrors = true := by
      simp [BaseCatcher.hasErrors, List.length_pos.mpr hne]
    rw [BaseCatcher.resolve, if_pos hh] at h
    cases hs : c.string with
    | none => simp [hs] at h
    | some s => simp [hs] at h
  · simp [BaseCatcher.resolve, BaseCatcher.hasErrors, h]
  · have hh : c.hasErrors = true := by
      simp [BaseCatcher.hasErrors, List.length_pos.mpr hne]
    rw [BaseCatcher.resolve, if_pos hh, BaseCatcher.string, hfmt]
    rfl
  · by_contra hne
    have hh : tc.hasErrors = true := by
      simp [TsCatcher.hasErrors, List.length_pos.mpr hne]
    rw [TsCatcher.resolve, if_pos hh] at h
    cases hs : tc.string with
    | none => simp [hs] at h
    | some s => simp [hs] at h
  · simp [TsCatcher.resolve, TsCatcher.hasErrors, h]
  · have hh : tc.hasErrors = true := by
      simp [TsCatcher.hasErrors, List.length_pos.mpr hne]
    rw [TsCatcher.resolve, if_pos hh, TsCatcher.string, hfmt]
    rfl

theorem c3_resolve_empty_iff_nil_and_text_witness :
    ((⟨[.leaf "foo", .leaf "bar"], 0, .basic⟩ : BaseCatcher).resolve
        = some (some (.leaf "foo\nbar")))
    ∧ ((⟨[⟨.leaf "foo", 3, false⟩], 0, false⟩ : TsCatcher).resolve
        = some (some (.leaf "foo"))) :=
  ⟨(c3_resolve_empty_iff_nil_and_text ⟨[.leaf "foo", .leaf "bar"], 0, .basic⟩
      ⟨[⟨.leaf "foo", 3, false⟩], 0, false⟩).2.1 ["foo", "bar"] (by simp) rfl,
   (c3_resolve_empty_iff_nil_and_text ⟨[.leaf "foo", .leaf "bar"], 0, .basic⟩
      ⟨[⟨.leaf "foo", 3, false⟩], 0, false⟩).2.2.2 ["foo"] (by simp) rfl⟩

/-- C4: the claim says the timestamp-policy aggregate text prefixes each
element with its capture timestamp.  The code does not: `String()` renders
each stored element with `timestampError.String()` (both branches of the
source's `if err.extended` call `String()`), which yields only the inner
error's text — the timestamp prefix exists only in `timestampError.Error()`
and `Format`.  Evaluated at the failing input: a timestamp catcher (and an
extended one) holding one error `"foo"` captured at instant 5 renders as
`"foo"`, with no `[timestamp]` prefix, and `Resolve` carries the same
text. -/
theorem c4_timestamp_string_has_no_timestamp :
    ((MakeTimestampCatcher 0).add 5 (some (.leaf "foo"))).string = some "foo"
    ∧ ((MakeExtendedTimestampCatcher 0).add 5 (some (.leaf "foo"))).string = some "foo"
    ∧ ((MakeTimestampCatcher 0).add 5 (some (.leaf "foo"))).resolve
        = some (some (.leaf "foo")) :=
  ⟨rfl, rfl, rfl⟩

/-- C8: `Collect` with nil is a no-op; with a non-nil leaf error the owned
(unbounded) collector records it before and regardless of how the outbound
race resolves, so `Len` grows by exactly one even when the queue is never
drained or a cancellation wins; and `Stop` leaves the collector — hence
`Resolve` — untouched. -/
theorem c8_collect_records_before_forwarding (ec : ErrorChannel) (e : GoErr)
    (outcome : CollectOutcome) (h : e.isCatcherVal = false)
    (hm : ec.catcher.maxSize ≤ 0) :
    ec.collect none outcome = some ec
    ∧ (∃ ec2, ec.collect (some e) outcome = some ec2
        ∧ ec2.catcher.errs = ec.catcher.errs ++ [e]
        ∧ ec2.catcher.len = ec.catcher.len + 1)
    ∧ ec.stop.resolve = ec.resolve
    ∧ ec.stop.catcher = ec.catcher := by
  have hadd : ec.catcher.add (some e)
      = some ⟨ec.catcher.errs ++ [e], ec.catcher.maxSize, ec.catcher.policy⟩ := by
    cases e with
    | catcher _ _ => simp [GoErr.isCatcherVal] at h
    | leaf _ => simp [BaseCatcher.add, BaseCatcher.safeAdd, push, hm]
    | fmtWrap _ _ => simp [BaseCatcher.add, BaseCatcher.safeAdd, push, hm]
    | ts _ _ _ => simp [BaseCatcher.add, BaseCatcher.safeAdd, push, hm]
  refine ⟨rfl, ?_, rfl, rfl⟩
  cases outcome with
  | forwarded =>
      refine ⟨⟨ec.errRecv, ec.errSend ++ [some e], ec.size,
        ⟨ec.catcher.errs ++ [e], ec.catcher.maxSize, ec.catcher.policy⟩, ec.stopped⟩,
        ?_, rfl, by simp [BaseCatcher.len]⟩
      simp [ErrorChannel.collect, hadd]
  | callerCancelled =>
      refine ⟨⟨ec.errRecv, ec.errSend, ec.size,
        ⟨ec.catcher.errs ++ [e], ec.catcher.maxSize, ec.catcher.policy⟩, ec.stopped⟩,
        ?_, rfl, by simp [BaseCatcher.len]⟩
      simp [ErrorChannel.collect, hadd]
  | channelCancelled =>
      refine ⟨⟨ec.errRecv, ec.errSend, ec.size,
        ⟨ec.catcher.errs ++ [e], ec.catcher.maxSize, ec.catcher.policy⟩, ec.stopped⟩,
        ?_, rfl, by simp [BaseCatcher.len]⟩
      simp [ErrorChannel.collect, hadd]

theorem c8_collect_records_before_forwarding_witness :
    (NewErrorChannel 4).collect none .channelCancelled = some (NewErrorChannel 4)
    ∧ (∃ ec2, (NewErrorChannel 4).collect (some (.leaf "hi")) .channelCancelled = some ec2
        ∧ ec2.catcher.errs = (NewErrorChannel 4).catcher.errs ++ [.leaf "hi"]
        ∧ ec2.catcher.len = (NewErrorChannel 4).catcher.len + 1)
    ∧ (NewErrorChannel 4).stop.resolve = (NewErrorChannel 4).resolve
    ∧ (NewErrorChannel 4).stop.catcher = (NewErrorChannel 4).catcher :=
  c8_collect_records_before_forwarding (NewErrorChannel 4) (.leaf "hi")
    .channelCancelled (by decide) (by decide)

/-- C9: `Errorf` with a non-empty format string and no format arguments
behaves exactly as `Add` of a literal error whose text is the format string
itself (no format processing, whatever `%` directives it contains), while
an empty format string is a no-op whatever the arguments — for both
collector variants and any external formatter. -/
theorem c9_errorf_literal_when_no_args (fmtE : String → List α → GoErr)
    (fmtE2 : String → List β → GoErr) (c : BaseCatcher) (tc : TsCatcher)
    (now : Nat) (form : String) (h : form ≠ "") (args : List α) (args2 : List β) :
    BaseCatcher.errorf fmtE c form [] = c.add (some (.leaf form))
    ∧ BaseCatcher.errorf fmtE c "" args = some c
    ∧ TsCatcher.errorf fmtE2 now tc form [] = tc.add now (some (.leaf form))
    ∧ TsCatcher.errorf fmtE2 now tc "" args2 = tc
    ∧ goFmt .errv (.leaf form) = some form := by
  refine ⟨?_, ?_, ?_, ?_, rfl⟩
  · simp [BaseCatcher.errorf, BaseCatcher.new, h]
  · simp [BaseCatcher.errorf]
  · simp [TsCatcher.errorf, TsCatcher.new, h]
  · simp [TsCatcher.errorf]

theorem c9_errorf_literal_when_no_args_witness :
    BaseCatcher.errorf (fun f (_ : List Unit) => GoErr.leaf f)
        (makeCatcher 0 .basic) "%s what" []
      = (makeCatcher 0 .basic).add (some (.leaf "%s what"))
    ∧ BaseCatcher.errorf (fun f (_ : List Unit) => GoErr.leaf f)
        (makeCatcher 0 .basic) "" [(), ()] = some (makeCatcher 0 .basic)
    ∧ TsCatcher.errorf (fun f (_ : List Unit) => GoErr.leaf f)
        3 (MakeTimestampCatcher 0) "%s what" []
      = (MakeTimestampCatcher 0).add 3 (some (.leaf "%s what"))
    ∧ TsCatcher.errorf (fun f (_ : List Unit) => GoErr.leaf f)
        3 (MakeTimestampCatcher 0) "" [(), ()] = MakeTimestampCatcher 0
    ∧ goFmt .errv (.leaf "%s what") = some "%s what" :=
  c9_errorf_literal_when_no_args (fun f _ => GoErr.leaf f) (fun f _ => GoErr.leaf f)
    (makeCatcher 0 .basic) (MakeTimestampCatcher 0) 3 "%s what" (by decide)
    [(), ()] [(), ()]

/-- C10: `Error()` on a collector storing no errors dereferences the nil
result of `Resolve()` and faults; when errors are stored (and each renders),
`Error()` agrees with `Resolve().Error()`, i.e. with the aggregate text —
for both collector variants. -/
theorem c10_error_method_faults_on_empty (c : BaseCatcher) (tc : TsCatcher) :
    (c.errs = [] → c.errorMethod = none)
    ∧ (∀ s, c.errs ≠ [] → c.string = some s → c.errorMethod = some s)
    ∧ (tc.errs = [] → tc.errorMethod = none)
    ∧ (∀ s, tc.errs ≠ [] → tc.string = some s → tc.errorMethod = some s) := by
  refine ⟨fun h => ?_, fun s hne hs => ?_, fun h => ?_, fun s hne hs => ?_⟩
  · simp [BaseCatcher.errorMethod, BaseCatcher.resolve, BaseCatcher.hasErrors, h]
  · have hh : c.hasErrors = true := by
      simp [BaseCatcher.hasErrors, List.length_pos.mpr hne]
    simp [BaseCatcher.errorMethod, BaseCatcher.resolve, hh, hs, goFmt, renders,
      Renders.pick]
  · simp [TsCatcher.errorMethod, TsCatcher.resolve, TsCatcher.hasErrors, h]
  · have hh : tc.hasErrors = true := by
      simp [TsCatcher.hasErrors, List.length_pos.mpr hne]
    simp [TsCatcher.errorMethod, TsCatcher.resolve, hh, hs, goFmt, renders,
      Renders.pick]

theorem c10_error_method_faults_on_empty_witness :
    ((⟨[], 0, .basic⟩ : BaseCatcher).errorMethod = none)
    ∧ ((⟨[.leaf "foo"], 0, .basic⟩ : BaseCatcher).errorMethod = some "foo")
    ∧ ((⟨[], 0, false⟩ : TsCatcher).errorMethod = none)
    ∧ ((⟨[⟨.leaf "foo", 3, false⟩], 0, false⟩ : TsCatcher).errorMethod = some "foo") :=
  ⟨(c10_error_method_faults_on_empty ⟨[], 0, .basic⟩ ⟨[], 0, false⟩).1 rfl,
   (c10_error_method_faults_on_empty ⟨[.leaf "foo"], 0, .basic⟩
      ⟨[⟨.leaf "foo", 3, false⟩], 0, false⟩).2.1 "foo" (by simp) rfl,
   (c10_error_method_faults_on_empty ⟨[], 0, .basic⟩ ⟨[], 0, false⟩).2.2.1 rfl,
   (c10_error_method_faults_on_empty ⟨[.leaf "foo"], 0, .basic⟩
      ⟨[⟨.leaf "foo", 3, false⟩], 0, false⟩).2.2.2 "foo" (by simp) rfl⟩
